import Mathlib

/-!
Verification development for the SintBox puzzle-box firmware.

This file gives a shallow embedding of the core of the repository:
the `PuzzleManager` coordinator (src/PuzzleManager.h), the
`SimonSaysPuzzle` sequence-memory machine (src/SimonSaysPuzzle.h), the
`TiltButtonPuzzle` (src/TiltButtonPuzzle.h), the `KnockDetectionPuzzle`
and the reset of the `SevenSegCodePuzzle` (main.cpp), and proves
properties of the coordinator/puzzle state machines.

Modelling conventions:
* `uint32_t` timestamps are `Nat`; the wrapping subtraction `a - b`
  on `uint32_t` is `usub a b`; `uint8_t` counters that are incremented
  are wrapped with `u8` (mod 256).
* `millis()` observed inside an `update(now)` call is idealised as the
  `now` argument of that call (the tick-level timing model); the raw
  inputs sampled by the blocking 200 ms feedback loop inside
  `SimonSaysPuzzle::_handleButtonPress` are idealised as held at the
  tick's sample (`feedbackButtons`).
* Hardware side effects (tones, LED writes, serial prints, blocking
  delays) have no logical state in the source and are dropped; the
  servo writes of the coordinator are logged in `servoWrites` so that
  "the actuator was commanded" is observable.
* The accelerometer read plus float magnitude computation of the knock
  puzzle (an external capability per spec section 6) is abstracted as an
  `Option ℚ` input: `none` models a failed `readAcceleration`, and
  `some delta` models a successful read with computed deviation `delta`.
-/

set_option maxRecDepth 100000
set_option maxHeartbeats 1000000

namespace SintBox

/-- 2^32, the modulus of `uint32_t` arithmetic. -/
def U32 : Nat := 4294967296

/-- Wrap a value to `uint32_t`. -/
def u32 (x : Nat) : Nat := x % U32

/-- Wrapping `uint32_t` subtraction `a - b`, as used by all elapsed-time
checks (`now - timestamp`). -/
def usub (a b : Nat) : Nat := (u32 a + U32 - u32 b) % U32

/-- Wrap a value to `uint8_t` (used for incremented 8-bit counters). -/
def u8 (x : Nat) : Nat := x % 256

/-- Update an element of a list in place (identity when out of range);
models an assignment to `array[i]`. -/
def listModify {α : Type} (l : List α) (i : Nat) (f : α → α) : List α :=
  match l, i with
  | [], _ => []
  | x :: xs, 0 => f x :: xs
  | x :: xs, n + 1 => x :: listModify xs n f

/-! ## SimonSaysPuzzle (src/SimonSaysPuzzle.h) -/

/-- `SimonSaysPuzzle::State`. -/
inductive SState where
  | waitingToStart
  | idle
  | playingSequence
  | waitingInput
  | successFeedback
  | failureFeedback
deriving DecidableEq

/-- One debounced button channel of the Simon Says puzzle: the per-index
slices of `_buttonState`, `_lastRawState`, `_lastPressedState`,
`_buttonChangeTime`. -/
structure BtnChan where
  buttonState : Bool
  lastRaw : Bool
  lastPressed : Bool
  changeTime : Nat
deriving DecidableEq

/-- `SimonSaysPuzzle::DEBOUNCE_MS`. -/
def DEBOUNCE_MS : Nat := 5

/-- `SimonSaysPuzzle::NOTE_DURATION`. -/
def NOTE_DURATION : Nat := 400

/-- `SimonSaysPuzzle::NOTE_PAUSE`. -/
def NOTE_PAUSE : Nat := 200

/-- `SimonSaysPuzzle::INPUT_TIMEOUT`. -/
def INPUT_TIMEOUT : Nat := 5000

/-- Loop body of `SimonSaysPuzzle::_updateButtons` for one channel:
a raw change records the edge time and accepts a press immediately;
the debounced assignment `_buttonState[i] = rawState` runs only once the
raw value has been unchanged for `DEBOUNCE_MS`, and a registered release
clears the `_lastPressedState` latch. -/
def btnStep (raw : Bool) (now : Nat) (c : BtnChan) : BtnChan :=
  let c1 :=
    if raw ≠ c.lastRaw then
      let cA := { c with lastRaw := raw, changeTime := now }
      if raw && !c.buttonState then { cA with buttonState := true } else cA
    else c
  if usub now c1.changeTime ≥ DEBOUNCE_MS then
    let oldState := c1.buttonState
    let c2 := { c1 with buttonState := raw }
    if oldState && !raw then { c2 with lastPressed := false } else c2
  else c1

/-- `SimonSaysPuzzle::_updateButtons`: apply `btnStep` to each of the four
channels with its raw sample. -/
def updateButtons (raw : List Bool) (now : Nat) (btns : List BtnChan) :
    List BtnChan :=
  List.zipWith (fun r c => btnStep r now c) raw btns

/-- `SimonSaysPuzzle::_round1Sequence`. -/
def round1Sequence : List Nat := [0, 1, 1, 2, 3, 3, 0, 1, 1, 3, 2]

/-- `SimonSaysPuzzle::_round2Sequence`. -/
def round2Sequence : List Nat := [0, 0, 1, 1, 0, 2, 1, 1, 1, 0, 1, 1]

/-- `SimonSaysPuzzle::_round3Sequence`. -/
def round3Sequence : List Nat := [0, 0, 1, 1, 1, 2, 3, 1, 2, 2, 2, 2, 3, 2, 1]

/-- `SimonSaysPuzzle::_round1Part1Length`. -/
def round1Part1Length : Nat := 6

/-- `SimonSaysPuzzle::_getCurrentSequence`. -/
def getCurrentSequence (round : Nat) : List Nat :=
  match round with
  | 0 => round1Sequence
  | 1 => round2Sequence
  | 2 => round3Sequence
  | _ => round1Sequence

/-- `SimonSaysPuzzle::_getCurrentSequenceLength` (the `_roundNLength`
constants 11, 12, 15). -/
def getCurrentSequenceLength (round : Nat) : Nat :=
  match round with
  | 0 => 11
  | 1 => 12
  | 2 => 15
  | _ => 11

/-- The `part1Length` switch that appears in `_success`, `_nextRound` and
`_playNote` (the `_roundNPart1Length` constants 6, 6, 8, default 6). -/
def part1LengthFor (round : Nat) : Nat :=
  match round with
  | 0 => 6
  | 1 => 6
  | 2 => 8
  | _ => 6

/-- State of `SimonSaysPuzzle`. -/
structure SimonState where
  solved : Bool
  mcpInitialized : Bool
  state : SState
  stateTimer : Nat
  currentRound : Nat
  sequenceIndex : Nat
  playerIndex : Nat
  currentLength : Nat
  timeoutCount : Nat
  btns : List BtnChan
  inputTimer : Nat
deriving DecidableEq

/-- A button channel with all-false booleans and zero edge time, as set by
`SimonSaysPuzzle::reset` and by the member initialisers. -/
def btnZero : BtnChan :=
  { buttonState := false, lastRaw := false, lastPressed := false, changeTime := 0 }

/-- `SimonSaysPuzzle::reset` (the buzzer/LED writes are hardware side
effects; `_mcpInitialized` is untouched). -/
def simonReset (now : Nat) (s : SimonState) : SimonState :=
  { s with
    solved := false
    currentRound := 0
    sequenceIndex := 0
    playerIndex := 0
    currentLength := round1Part1Length
    timeoutCount := 0
    state := SState.waitingToStart
    stateTimer := now
    btns := List.replicate 4 btnZero }

/-- The member-initialiser state of `SimonSaysPuzzle` (before `begin`). -/
def simonInit : SimonState :=
  { solved := false
    mcpInitialized := false
    state := SState.waitingToStart
    stateTimer := 0
    currentRound := 0
    sequenceIndex := 0
    playerIndex := 0
    currentLength := 1
    timeoutCount := 0
    btns := List.replicate 4 btnZero
    inputTimer := 0 }

/-- `SimonSaysPuzzle::begin`: with a null I/O-expander handle the puzzle
records `_mcpInitialized = false` and performs a safe reset; otherwise it
records availability and resets (pin configuration is hardware setup). -/
def simonBegin (mcpPresent : Bool) (now : Nat) : SimonState :=
  if mcpPresent then simonReset now { simonInit with mcpInitialized := true }
  else simonReset now { simonInit with mcpInitialized := false }

/-- The blocking 200 ms feedback loop in `_handleButtonPress`, which keeps
calling `_updateButtons` every 10 ms; the raw samples seen during the
blocked window are idealised as held at this tick's sample. -/
def feedbackButtons (raw : List Bool) (now : Nat) (btns : List BtnChan) :
    List BtnChan :=
  (List.range 20).foldl (fun bs k => updateButtons raw (now + 10 * k) bs) btns

/-- `SimonSaysPuzzle::_startRound`. -/
def simonStartRound (now : Nat) (s : SimonState) : SimonState :=
  { s with
    sequenceIndex := 0
    playerIndex := 0
    state := SState.playingSequence
    stateTimer := now }

/-- `SimonSaysPuzzle::_nextRound`: advance the round, reset the build-up
length to the new round's part-1 baseline, and either mark the puzzle
solved (round index 3) or wait for the next activation gesture. -/
def simonNextRound (now : Nat) (s : SimonState) : SimonState :=
  let r := u8 (s.currentRound + 1)
  let s1 := { s with currentRound := r, currentLength := part1LengthFor r }
  if r ≥ 3 then { s1 with solved := true }
  else { s1 with state := SState.waitingToStart, stateTimer := now }

/-- `SimonSaysPuzzle::_success`: at the round's full length advance to the
next round; otherwise jump from the part-1 checkpoint straight to the full
length (or grow by one) and replay. -/
def simonSuccess (now : Nat) (s : SimonState) : SimonState :=
  let s1 := { s with state := SState.successFeedback, stateTimer := now }
  let fullSequenceLength := getCurrentSequenceLength s1.currentRound
  if s1.currentLength ≥ fullSequenceLength then simonNextRound now s1
  else
    let part1Length := part1LengthFor s1.currentRound
    let s2 :=
      if s1.currentLength = part1Length then
        { s1 with currentLength := fullSequenceLength }
      else { s1 with currentLength := u8 (s1.currentLength + 1) }
    simonStartRound now s2

/-- `SimonSaysPuzzle::_failure`: after the failure cue the source
immediately calls `_startRound()` again, so the `FAILURE_FEEDBACK` phase
set at the top is overwritten before the call returns. -/
def simonFailure (now : Nat) (s : SimonState) : SimonState :=
  simonStartRound now { s with state := SState.failureFeedback, stateTimer := now }

/-- `SimonSaysPuzzle::_replaySequence` (reached from the `FAILURE_FEEDBACK`
branch of `update`): back to `IDLE` with a shortened delay. -/
def simonReplaySequence (now : Nat) (s : SimonState) : SimonState :=
  { s with state := SState.idle, stateTimer := usub now 1000 }

/-- `SimonSaysPuzzle::_playSequenceStep`: tone/LED phases change no logical
state; once a full step duration has elapsed, advance the playback cursor
and hand over to the player after the last symbol. -/
def simonPlaySequenceStep (now : Nat) (s : SimonState) : SimonState :=
  let sequenceLength := s.currentLength
  let elapsed := usub now s.stateTimer
  let stepDuration := NOTE_DURATION + NOTE_PAUSE
  if elapsed < NOTE_DURATION then s
  else if elapsed < stepDuration then s
  else
    let s1 := { s with sequenceIndex := u8 (s.sequenceIndex + 1) }
    let s2 :=
      if s1.sequenceIndex ≥ sequenceLength then
        { s1 with state := SState.waitingInput, playerIndex := 0, inputTimer := now }
      else s1
    { s2 with stateTimer := now }

/-- `SimonSaysPuzzle::_buttonPressed` for each index, yielding the first
pressed button, mirroring the scan loop in `_handlePlayerInput`. -/
def firstPressedIdx (btns : List BtnChan) : Option Nat :=
  btns.findIdx? (fun c => c.buttonState && !c.lastPressed)

/-- `SimonSaysPuzzle::_handleButtonPress`: latch the handled press, run the
feedback window, then either advance the cursor (and complete the prefix
via `_success`) or fail; any input zeroes the timeout counter. -/
def simonHandleButtonPress (raw : List Bool) (button : Nat) (now : Nat)
    (s : SimonState) : SimonState :=
  let seq := getCurrentSequence s.currentRound
  let sequenceLength := s.currentLength
  let btns1 := listModify s.btns button (fun c => { c with lastPressed := true })
  let s1 := { s with btns := feedbackButtons raw now btns1 }
  if button = seq.getD s1.playerIndex 0 then
    let s2 :=
      { s1 with
        playerIndex := u8 (s1.playerIndex + 1)
        inputTimer := now
        timeoutCount := 0 }
    if s2.playerIndex ≥ sequenceLength then simonSuccess now s2 else s2
  else
    simonFailure now { s1 with timeoutCount := 0 }

/-- `SimonSaysPuzzle::_handlePlayerInput`: idle timeout bumps the
consecutive-timeout counter (full reset at 4, ordinary failure below);
otherwise the first pressed button is handled. -/
def simonHandlePlayerInput (raw : List Bool) (now : Nat) (s : SimonState) :
    SimonState :=
  if usub now s.inputTimer > INPUT_TIMEOUT then
    let s1 := { s with timeoutCount := u8 (s.timeoutCount + 1) }
    if s1.timeoutCount ≥ 4 then simonReset now s1
    else simonFailure now s1
  else
    match firstPressedIdx s.btns with
    | some b => simonHandleButtonPress raw b now s
    | none => s

/-- `SimonSaysPuzzle::update`: early return when solved or when the
I/O-expander dependency is unavailable; otherwise debounce the buttons and
dispatch on the state machine phase. -/
def simonUpdate (raw : List Bool) (now : Nat) (s : SimonState) : SimonState :=
  if s.solved || !s.mcpInitialized then s
  else
    let s1 := { s with btns := updateButtons raw now s.btns }
    match s1.state with
    | SState.waitingToStart =>
      if (s1.btns.getD 0 btnZero).buttonState &&
         (s1.btns.getD 1 btnZero).buttonState &&
         (s1.btns.getD 3 btnZero).buttonState then
        { s1 with state := SState.idle, stateTimer := now }
      else s1
    | SState.idle =>
      if usub now s1.stateTimer ≥ 2000 then simonStartRound now s1 else s1
    | SState.playingSequence => simonPlaySequenceStep now s1
    | SState.waitingInput => simonHandlePlayerInput raw now s1
    | SState.successFeedback =>
      if usub now s1.stateTimer ≥ 1000 then simonNextRound now s1 else s1
    | SState.failureFeedback =>
      if usub now s1.stateTimer ≥ 1500 then simonReplaySequence now s1 else s1

/-- Run a list of `update(now)` ticks (raw samples paired with times). -/
def simonRun (ticks : List (List Bool × Nat)) (s : SimonState) : SimonState :=
  ticks.foldl (fun st t => simonUpdate t.1 t.2 st) s

/-! ## TiltButtonPuzzle (src/TiltButtonPuzzle.h)

Raw pin levels are booleans with `true = HIGH`, `false = LOW`. -/

/-- State of `TiltButtonPuzzle` (configuration plus runtime fields; the
pin number is hardware wiring). -/
structure TiltState where
  activeLow : Bool
  debounceMs : Nat
  holdMs : Nat
  solved : Bool
  active : Bool
  last : Bool
  stable : Bool
  tEdge : Nat
  tStartActive : Nat
  lastCountdownOutput : Nat
deriving DecidableEq

/-- `TiltButtonPuzzle::isActive`: `activeLow ? (level == LOW) : (level == HIGH)`. -/
def tiltIsActive (activeLow : Bool) (level : Bool) : Bool :=
  if activeLow then !level else level

/-- The "Debounce + hold logic" block of `TiltButtonPuzzle::update`: a raw
edge records its time; the stable value is reassigned only once the raw
level has held for `debounceMs`, and a transition to active starts the
countdown. -/
def tiltDebounce (r : Bool) (now : Nat) (t : TiltState) : TiltState :=
  let t1 := if r ≠ t.last then { t with last := r, tEdge := now } else t
  if usub now t1.tEdge ≥ t1.debounceMs ∧ r ≠ t1.stable then
    let wasActive := t1.active
    let tA := { t1 with stable := r, active := tiltIsActive t1.activeLow r }
    if tA.active && !wasActive then
      { tA with tStartActive := now, lastCountdownOutput := 0 }
    else tA
  else t1

/-- The "If active, show countdown and check completion" block of
`TiltButtonPuzzle::update`. -/
def tiltHold (now : Nat) (t2 : TiltState) : TiltState :=
  if t2.active then
    let elapsed := usub now t2.tStartActive
    let remaining := if t2.holdMs > elapsed then t2.holdMs - elapsed else 0
    let secondsRemaining := (remaining + 999) / 1000
    let t3 :=
      if secondsRemaining ≠ t2.lastCountdownOutput ∧ remaining > 0 then
        { t2 with lastCountdownOutput := secondsRemaining }
      else t2
    if elapsed ≥ t3.holdMs then { t3 with solved := true } else t3
  else t2

/-- `TiltButtonPuzzle::update`: nothing once solved; otherwise the
debounce block followed by the countdown/solve block. -/
def tiltUpdate (r : Bool) (now : Nat) (t : TiltState) : TiltState :=
  if t.solved then t
  else tiltHold now (tiltDebounce r now t)

/-- `TiltButtonPuzzle::reset` (also the body of `begin` after the pin
mode): reads the pin, forces a stable re-evaluation, clears everything. -/
def tiltReset (r : Bool) (now : Nat) (t : TiltState) : TiltState :=
  { t with
    solved := false
    last := r
    stable := !r
    tEdge := now
    tStartActive := now
    lastCountdownOutput := 0
    active := false }

/-- Run a list of tilt ticks (raw level paired with time). -/
def tiltRun (ticks : List (Bool × Nat)) (t : TiltState) : TiltState :=
  ticks.foldl (fun st k => tiltUpdate k.1 k.2 st) t

/-! ## KnockDetectionPuzzle (KnockDetectionPuzzle.h) -/

/-- `KnockDetectionPuzzle::State`. -/
inductive KState where
  | waitingToStart
  | idle
  | detecting
  | solved
deriving DecidableEq

/-- State of `KnockDetectionPuzzle` (configuration plus runtime fields). -/
structure KnockState where
  requiredKnocks : Nat
  knockThreshold : ℚ
  knockWindowMs : Nat
  quietPeriodMs : Nat
  state : KState
  knockCount : Nat
  sequenceStartTime : Nat
  lastKnockTime : Nat
  lastMagnitude : ℚ
  knockArmed : Bool
deriving DecidableEq

/-- The constructor of `KnockDetectionPuzzle`. -/
def knockInit (requiredKnocks : Nat) (knockThreshold : ℚ)
    (knockWindowMs quietPeriodMs : Nat) : KnockState :=
  { requiredKnocks
    knockThreshold
    knockWindowMs
    quietPeriodMs
    state := KState.waitingToStart
    knockCount := 0
    sequenceStartTime := 0
    lastKnockTime := 0
    lastMagnitude := 0
    knockArmed := true }

/-- `KnockDetectionPuzzle::begin`: when the accelerometer initialisation
fails the method returns early, leaving `WAITING_TO_START`; on success the
state becomes `IDLE`. -/
def knockBegin (initOk : Bool) (k : KnockState) : KnockState :=
  if initOk then { k with state := KState.idle } else k

/-- `KnockDetectionPuzzle::isSolved`. -/
def knockIsSolved (k : KnockState) : Bool := k.state = KState.solved

/-- `KnockDetectionPuzzle::update`. The input is the deviation-from-gravity
`delta` computed from a successful accelerometer read (`none` models a
failed `readAcceleration`, which skips the tick). Hysteresis arms/disarms
the detector, a registered knock starts or extends a sequence, and an
expired window drops back to `IDLE`. -/
def knockUpdate (sample : Option ℚ) (now : Nat) (k : KnockState) : KnockState :=
  if k.state = KState.solved ∨ k.state = KState.waitingToStart then k
  else
    match sample with
    | none => k
    | some delta =>
      let armStep :=
        if delta < k.knockThreshold * (1 / 2) then
          (false, { k with knockArmed := true })
        else if delta > k.knockThreshold ∧ k.knockArmed = true ∧
                  usub now k.lastKnockTime ≥ k.quietPeriodMs then
          (true, { k with knockArmed := false })
        else (false, k)
      let isKnock := armStep.1
      let k1 := armStep.2
      let k2 :=
        if isKnock then
          let kA := { k1 with lastKnockTime := now }
          if kA.state = KState.idle ∨ usub now kA.sequenceStartTime > kA.knockWindowMs then
            { kA with knockCount := 1, sequenceStartTime := now, state := KState.detecting }
          else if kA.state = KState.detecting then
            let kB := { kA with knockCount := u8 (kA.knockCount + 1) }
            if kB.knockCount ≥ kB.requiredKnocks then { kB with state := KState.solved }
            else kB
          else kA
        else k1
      if k2.state = KState.detecting ∧ usub now k2.sequenceStartTime > k2.knockWindowMs then
        { k2 with knockCount := 0, state := KState.idle }
      else k2

/-- `KnockDetectionPuzzle::reset`: unconditionally back to `IDLE` (not to
`WAITING_TO_START`), counters cleared, detector re-armed. -/
def knockReset (k : KnockState) : KnockState :=
  { k with
    state := KState.idle
    knockCount := 0
    sequenceStartTime := 0
    lastKnockTime := 0
    lastMagnitude := 0
    knockArmed := true }

/-- Run a list of knock ticks (sample paired with time). -/
def knockRun (ticks : List (Option ℚ × Nat)) (k : KnockState) : KnockState :=
  ticks.foldl (fun st t => knockUpdate t.1 t.2 st) k

/-! ## SevenSegCodePuzzle::reset (main.cpp)

Only the fields written by `reset` (plus the solved flag it clears) are
modelled; the display rendering and code-entry machine are out of scope
for the claims. -/

/-- `SevenSegCodePuzzle::State`. -/
inductive SegState where
  | preview
  | validate
  | invalidBlink
  | locked
deriving DecidableEq

/-- The slice of `SevenSegCodePuzzle` state written by `reset`. -/
structure SevenSegState where
  stored : List Int
  nStored : Nat
  cursorOn : Bool
  lastCursorBlink : Nat
  state : SegState
  solved : Bool
deriving DecidableEq

/-- `SevenSegCodePuzzle::reset`: clears the stored digits, returns to
`PREVIEW` and clears the solved flag (the display writes are hardware). -/
def sevenSegReset (now : Nat) (st : SevenSegState) : SevenSegState :=
  { st with
    stored := [-1, -1, -1]
    nStored := 0
    cursorOn := true
    lastCursorBlink := now
    state := SegState.preview
    solved := false }

/-! ## PuzzleManager (src/PuzzleManager.h)

The coordinator is generic over the puzzle state type, mirroring the
dynamic dispatch over `Puzzle*`; `PuzzleAny` below closes it over the
concrete puzzles modelled in this file. The per-tick world sample
(`millis`, raw pins, accelerometer) is bundled in `Env`. -/

/-- One tick's sample of the outside world, as consumed by the puzzles. -/
structure Env where
  now : Nat
  simonRaw : List Bool
  tiltRaw : Bool
  knockSample : Option ℚ

/-- The `Puzzle` lifecycle contract consumed by the coordinator. -/
structure PuzzleOps (σ : Type) where
  update : Env → σ → σ
  isSolved : σ → Bool
  reset : Env → σ → σ

/-- Closed sum of the concrete puzzle machines modelled in this file. -/
inductive PuzzleAny where
  | simon (s : SimonState)
  | tilt (t : TiltState)
  | knock (k : KnockState)
deriving DecidableEq

/-- Dispatch of the lifecycle contract over `PuzzleAny`. -/
def anyOps : PuzzleOps PuzzleAny :=
  { update := fun e p =>
      match p with
      | PuzzleAny.simon s => PuzzleAny.simon (simonUpdate e.simonRaw e.now s)
      | PuzzleAny.tilt t => PuzzleAny.tilt (tiltUpdate e.tiltRaw e.now t)
      | PuzzleAny.knock k => PuzzleAny.knock (knockUpdate e.knockSample e.now k)
    isSolved := fun p =>
      match p with
      | PuzzleAny.simon s => s.solved
      | PuzzleAny.tilt t => t.solved
      | PuzzleAny.knock k => knockIsSolved k
    reset := fun e p =>
      match p with
      | PuzzleAny.simon s => PuzzleAny.simon (simonReset e.now s)
      | PuzzleAny.tilt t => PuzzleAny.tilt (tiltReset e.tiltRaw e.now t)
      | PuzzleAny.knock k => PuzzleAny.knock (knockReset k) }

/-- State of `PuzzleManager<N>`: the attached puzzles (N is their number),
the servo configuration, the last commanded angle, the aggregate latch,
and a log of the physical servo writes (`_servo.write`). -/
structure MgrState (σ : Type) where
  puzzles : List σ
  servoPin : Nat
  lockedAngle : Nat
  unlockedAngle : Nat
  currentAngle : Nat
  allSolved : Bool
  servoWrites : List Nat

/-- `PuzzleManager::PuzzleManager` followed by `attach`: angles configured,
`_currentAngle = 255` (invalid, forcing the first move), latch clear. -/
def mgrInit {σ : Type} (puzzles : List σ) (servoPin lockedAngle unlockedAngle : Nat) :
    MgrState σ :=
  { puzzles
    servoPin
    lockedAngle
    unlockedAngle
    currentAngle := 255
    allSolved := false
    servoWrites := [] }

/-- `PuzzleManager::lock`: writes the servo only when the last commanded
angle differs from the locked angle. -/
def lockCmd {σ : Type} (s : MgrState σ) : MgrState σ :=
  if s.currentAngle ≠ s.lockedAngle then
    { s with
      servoWrites := s.servoWrites ++ [s.lockedAngle]
      currentAngle := s.lockedAngle }
  else s

/-- `PuzzleManager::unlock`: writes the servo only when the last commanded
angle differs from the unlocked angle. -/
def unlockCmd {σ : Type} (s : MgrState σ) : MgrState σ :=
  if s.currentAngle ≠ s.unlockedAngle then
    { s with
      servoWrites := s.servoWrites ++ [s.unlockedAngle]
      currentAngle := s.unlockedAngle }
  else s

/-- `PuzzleManager::update` instrumented with whether the all-solved latch
fired on this tick (the `!_allSolved && solvedCount==N` branch, which sets
the latch and calls `unlock`): update every puzzle, count the solved ones
in a `uint8_t`, and fire at most once. LED driving is a hardware side
effect. -/
def mgrTickF {σ : Type} (ops : PuzzleOps σ) (e : Env) (s : MgrState σ) :
    MgrState σ × Bool :=
  let ps := s.puzzles.map (ops.update e)
  let solvedCount := u8 (ps.filter (fun p => ops.isSolved p)).length
  let s1 := { s with puzzles := ps }
  if s.allSolved = false ∧ solvedCount = s.puzzles.length then
    (unlockCmd { s1 with allSolved := true }, true)
  else (s1, false)

/-- `PuzzleManager::update`. -/
def mgrUpdate {σ : Type} (ops : PuzzleOps σ) (e : Env) (s : MgrState σ) :
    MgrState σ :=
  (mgrTickF ops e s).1

/-- The latch-fire booleans of a run of ticks. -/
def mgrFires {σ : Type} (ops : PuzzleOps σ) : List Env → MgrState σ → List Bool
  | [], _ => []
  | e :: es, s =>
    let t := mgrTickF ops e s
    t.2 :: mgrFires ops es t.1

/-- `PuzzleManager::resetAll`: reset every puzzle, clear the aggregate
latch, force the actuator locked. -/
def mgrResetAll {σ : Type} (ops : PuzzleOps σ) (e : Env) (s : MgrState σ) :
    MgrState σ :=
  lockCmd { s with puzzles := s.puzzles.map (ops.reset e), allSolved := false }

/-! ## Concrete execution traces

A complete run of the Simon Says machine from `begin`: activation gesture,
armed delay, playback of the round-1 part-1 prefix (length 6), six correct
inputs (which jump the build-up length to 11), playback of the full
round-1 sequence, then two correct inputs followed by a wrong one. -/

/-- No button held. -/
def rawNone : List Bool := [false, false, false, false]

/-- Only button `b` held. -/
def rawOf (b : Nat) : List Bool := [b == 0, b == 1, b == 2, b == 3]

/-- A press of button `b` at time `t` followed by a settled release. -/
def pressRelease (b : Nat) (t : Nat) : List (List Bool × Nat) :=
  [(rawOf b, t), (rawNone, t + 150), (rawNone, t + 160)]

/-- Activation gesture (buttons 1, 2, 4 held), armed delay, playback of the
six-symbol prefix. -/
def c4ticksA : List (List Bool × Nat) :=
  [([true, true, false, true], 10), (rawNone, 2500), (rawNone, 3100),
   (rawNone, 3700), (rawNone, 4300), (rawNone, 4900), (rawNone, 5500),
   (rawNone, 6100)]

/-- The six correct inputs for the round-1 part-1 prefix `0 1 1 2 3 3`. -/
def c4ticksB : List (List Bool × Nat) :=
  pressRelease 0 6200 ++ pressRelease 1 6500 ++ pressRelease 1 6800 ++
  pressRelease 2 7100 ++ pressRelease 3 7400 ++ [(rawOf 3, 7700)]

/-- State after the six correct part-1 inputs. -/
def c4state1 : SimonState := simonRun (c4ticksA ++ c4ticksB) (simonBegin true 0)

/-- Playback ticks for the full round-1 sequence of length 11. -/
def c4ticksC : List (List Bool × Nat) :=
  (List.range 11).map (fun k => (rawNone, 8300 + 600 * k))

/-- State awaiting player input at build-up length 11 (round 1). -/
def c9base : SimonState := simonRun c4ticksC c4state1

/-- Two correct inputs then a wrong one at cursor position 3 of 11
(expected button 1, pressed button 3). -/
def c4ticksD : List (List Bool × Nat) :=
  pressRelease 0 14400 ++ pressRelease 1 14700 ++ [(rawOf 3, 15000)]

/-- State after the failed attempt at length 11. -/
def c4state2 : SimonState := simonRun c4ticksD c9base

/-- All eleven correct inputs of the full round-1 sequence except the
last. -/
def c5ticks : List (List Bool × Nat) :=
  (List.zipWith (fun b k => pressRelease b (14400 + 300 * k))
    [0, 1, 1, 2, 3, 3, 0, 1, 1, 3] (List.range 10)).flatten

/-- State with ten of the eleven round-1 symbols entered correctly. -/
def c5pre : SimonState := simonRun c5ticks c9base

/-- State after the final correct input of round 1: the round advances. -/
def c5post : SimonState := simonUpdate (rawOf 2) 17400 c5pre

/-! ## Helper lemmas -/

/-- A solved Simon Says puzzle ignores `update` entirely. -/
theorem simonUpdate_of_solved (raw : List Bool) (now : Nat) (s : SimonState)
    (h : s.solved = true) : simonUpdate raw now s = s := by
  simp [simonUpdate, h]

/-- A solved tilt puzzle ignores `update` entirely. -/
theorem tiltUpdate_of_solved (r : Bool) (now : Nat) (t : TiltState)
    (h : t.solved = true) : tiltUpdate r now t = t := by
  simp [tiltUpdate, h]

/-- A solved knock puzzle ignores `update` entirely. -/
theorem knockUpdate_of_solved (d : Option ℚ) (now : Nat) (k : KnockState)
    (h : k.state = KState.solved) : knockUpdate d now k = k := by
  simp [knockUpdate, h]

/-- Concrete solved Simon Says state (for witnesses). -/
def simonSolvedW : SimonState :=
  { simonInit with solved := true, mcpInitialized := true }

/-- Concrete solved tilt state (configuration from main.cpp). -/
def tiltSolvedW : TiltState :=
  { activeLow := false, debounceMs := 100, holdMs := 10000, solved := true,
    active := true, last := true, stable := true, tEdge := 0,
    tStartActive := 0, lastCountdownOutput := 0 }

/-- Concrete solved knock state (configuration from main.cpp). -/
def knockSolvedW : KnockState :=
  { knockInit 4 4 2000 100 with state := KState.solved }

/-! ## Claim theorems -/

/-- C2: for the puzzles of this system, solved is sticky: once `isSolved`
is true, every subsequent `update(now)` call, for any inputs and times,
leaves it true (in fact leaves the whole state untouched); only an
explicit `reset` makes it false again. -/
theorem solved_sticky_until_reset :
    (∀ (raw : List Bool) (now : Nat) (s : SimonState), s.solved = true →
        simonUpdate raw now s = s) ∧
    (∀ (r : Bool) (now : Nat) (t : TiltState), t.solved = true →
        tiltUpdate r now t = t) ∧
    (∀ (d : Option ℚ) (now : Nat) (k : KnockState), k.state = KState.solved →
        knockUpdate d now k = k) ∧
    (∀ (ticks : List (List Bool × Nat)) (s : SimonState), s.solved = true →
        (simonRun ticks s).solved = true) ∧
    (∀ (ticks : List (Bool × Nat)) (t : TiltState), t.solved = true →
        (tiltRun ticks t).solved = true) ∧
    (∀ (ticks : List (Option ℚ × Nat)) (k : KnockState), k.state = KState.solved →
        (knockRun ticks k).state = KState.solved) ∧
    (∀ (now : Nat) (s : SimonState), (simonReset now s).solved = false) ∧
    (∀ (r : Bool) (now : Nat) (t : TiltState), (tiltReset r now t).solved = false) ∧
    (∀ (k : KnockState), knockIsSolved (knockReset k) = false) := by
  refine ⟨simonUpdate_of_solved, tiltUpdate_of_solved, knockUpdate_of_solved,
    ?_, ?_, ?_, fun _ _ => rfl, fun _ _ _ => rfl, fun _ => rfl⟩
  · intro ticks
    induction ticks with
    | nil => intro s h; exact h
    | cons t ts ih =>
      intro s h
      simpa [simonRun, simonUpdate_of_solved t.1 t.2 s h] using
        ih s h
  · intro ticks
    induction ticks with
    | nil => intro t h; exact h
    | cons x xs ih =>
      intro t h
      simpa [tiltRun, tiltUpdate_of_solved x.1 x.2 t h] using ih t h
  · intro ticks
    induction ticks with
    | nil => intro k h; exact h
    | cons x xs ih =>
      intro k h
      simpa [knockRun, knockUpdate_of_solved x.1 x.2 k h] using ih k h

/-- Witness for C2 at concrete solved states. -/
theorem solved_sticky_until_reset_witness :
    simonUpdate rawNone 5 simonSolvedW = simonSolvedW ∧
    tiltUpdate false 5 tiltSolvedW = tiltSolvedW ∧
    knockUpdate none 5 knockSolvedW = knockSolvedW ∧
    (simonRun [(rawNone, 5), (rawOf 2, 9)] simonSolvedW).solved = true ∧
    (tiltRun [(false, 5), (true, 9)] tiltSolvedW).solved = true ∧
    (knockRun [(none, 5), (some 20, 9)] knockSolvedW).state = KState.solved ∧
    (simonReset 7 simonSolvedW).solved = false ∧
    (tiltReset true 7 tiltSolvedW).solved = false ∧
    knockIsSolved (knockReset knockSolvedW) = false :=
  ⟨solved_sticky_until_reset.1 rawNone 5 simonSolvedW rfl,
   solved_sticky_until_reset.2.1 false 5 tiltSolvedW rfl,
   solved_sticky_until_reset.2.2.1 none 5 knockSolvedW rfl,
   solved_sticky_until_reset.2.2.2.1 [(rawNone, 5), (rawOf 2, 9)] simonSolvedW rfl,
   solved_sticky_until_reset.2.2.2.2.1 [(false, 5), (true, 9)] tiltSolvedW rfl,
   solved_sticky_until_reset.2.2.2.2.2.1 [(none, 5), (some 20, 9)] knockSolvedW rfl,
   solved_sticky_until_reset.2.2.2.2.2.2.1 7 simonSolvedW,
   solved_sticky_until_reset.2.2.2.2.2.2.2.1 true 7 tiltSolvedW,
   solved_sticky_until_reset.2.2.2.2.2.2.2.2 knockSolvedW⟩

/-- C3: after `resetAll` on a coordinator in any state — including one
with solved puzzles and an unlocked actuator — every puzzle reports
unsolved, the aggregate latch is clear, and the last commanded actuator
angle is the locked angle; the `SevenSegCodePuzzle` reset cited by the
claim likewise clears its solved flag. -/
theorem resetAll_clears_puzzles_and_locks (e : Env) (s : MgrState PuzzleAny) :
    ((mgrResetAll anyOps e s).puzzles.all fun p => !(anyOps.isSolved p)) = true ∧
    (mgrResetAll anyOps e s).allSolved = false ∧
    (mgrResetAll anyOps e s).currentAngle = s.lockedAngle ∧
    (∀ (now : Nat) (st : SevenSegState), (sevenSegReset now st).solved = false) := by
  have hp : ∀ (p : PuzzleAny), anyOps.isSolved (anyOps.reset e p) = false := by
    intro p
    cases p <;> rfl
  refine ⟨?_, ?_, ?_, fun _ _ => rfl⟩
  · have hpz : (mgrResetAll anyOps e s).puzzles = s.puzzles.map (anyOps.reset e) := by
      simp only [mgrResetAll, lockCmd]
      split <;> rfl
    rw [hpz, List.all_map, List.all_eq_true]
    intro p _
    simp [Function.comp, hp p]
  · simp only [mgrResetAll, lockCmd]
    split <;> rfl
  · simp only [mgrResetAll, lockCmd]
    split
    · rfl
    · next h => simpa using Decidable.not_not.mp h

/-- C10: a servo write happens in `lock`/`unlock` exactly when the
requested angle differs from the last commanded angle, each call leaves
the last commanded angle equal to the requested one, and — because the
stored angle starts at the invalid value 255 — the first `lock` or
`unlock` after construction always performs a physical write for any
configured angles in the valid 0–180 range. -/
theorem servo_write_iff_angle_differs {σ : Type} (s : MgrState σ)
    (pz : List σ) (sp la ua : Nat) (hla : la ≤ 180) (hua : ua ≤ 180) :
    ((lockCmd s).servoWrites =
      if s.currentAngle ≠ s.lockedAngle then s.servoWrites ++ [s.lockedAngle]
      else s.servoWrites) ∧
    ((unlockCmd s).servoWrites =
      if s.currentAngle ≠ s.unlockedAngle then s.servoWrites ++ [s.unlockedAngle]
      else s.servoWrites) ∧
    (lockCmd s).currentAngle = s.lockedAngle ∧
    (unlockCmd s).currentAngle = s.unlockedAngle ∧
    (lockCmd (mgrInit pz sp la ua)).servoWrites = [la] ∧
    (unlockCmd (mgrInit pz sp la ua)).servoWrites = [ua] := by
  have hla' : (255 : Nat) ≠ la := by omega
  have hua' : (255 : Nat) ≠ ua := by omega
  refine ⟨?_, ?_, ?_, ?_, ?_, ?_⟩
  · simp only [lockCmd]; split <;> simp_all
  · simp only [unlockCmd]; split <;> simp_all
  · simp only [lockCmd]; split
    · rfl
    · next h => exact Decidable.not_not.mp h
  · simp only [unlockCmd]; split
    · rfl
    · next h => exact Decidable.not_not.mp h
  · simp [lockCmd, mgrInit, hla']
  · simp [unlockCmd, mgrInit, hua']

/-- Witness for C10 with the configuration of main.cpp (locked angle 0,
unlocked angle 140, servo pin 9). -/
theorem servo_write_iff_angle_differs_witness :
    (lockCmd (mgrInit ([] : List PuzzleAny) 9 0 140)).servoWrites = [0] ∧
    (unlockCmd (mgrInit ([] : List PuzzleAny) 9 0 140)).servoWrites = [140] :=
  ⟨(servo_write_iff_angle_differs (mgrInit ([] : List PuzzleAny) 9 0 140)
      [] 9 0 140 (by decide) (by decide)).2.2.2.2.1,
   (servo_write_iff_angle_differs (mgrInit ([] : List PuzzleAny) 9 0 140)
      [] 9 0 140 (by decide) (by decide)).2.2.2.2.2⟩

/-- Wrapping subtraction of a value from itself is zero. -/
theorem usub_self (a : Nat) : usub a a = 0 := by
  simp only [usub, u32]
  rw [Nat.add_sub_cancel_left, Nat.mod_self]

/-- The countdown/solve block never changes the debounced value or the
edge timestamp. -/
theorem tiltHold_preserves (now : Nat) (t2 : TiltState) :
    (tiltHold now t2).stable = t2.stable ∧ (tiltHold now t2).tEdge = t2.tEdge := by
  simp only [tiltHold]
  split_ifs <;> simp

/-- If the debounce block changes the stable value, the new stable value
is the current raw sample and the raw level has held unchanged for at
least the debounce window. -/
theorem tiltDebounce_stable_change (r : Bool) (now : Nat) (t : TiltState)
    (h : (tiltDebounce r now t).stable ≠ t.stable) :
    (tiltDebounce r now t).stable = r ∧
      usub now (tiltDebounce r now t).tEdge ≥ t.debounceMs := by
  revert h
  simp only [tiltDebounce]
  split_ifs <;> intro h <;> simp_all [usub_self]

/-- C7 counterexample: in the Simon Says debounce, a raw press edge is
accepted immediately — the stable (debounced) value changes although the
raw change has been held for 0 ms, which is shorter than the 5 ms
debounce window. -/
theorem press_accepted_immediately :
    btnZero.buttonState = false ∧
    (btnStep true 3 btnZero).buttonState = true ∧
    (btnStep true 3 btnZero).changeTime = 3 ∧
    usub 3 (btnStep true 3 btnZero).changeTime < DEBOUNCE_MS := by
  decide

/-- C7 amended: the tilt channel is symmetrically debounced (its stable
value changes only once the raw level has held unchanged for the debounce
window since its last edge), and the Simon Says button channels debounce
only the release direction (a registered release requires the raw level
to have held low for the window), while a press is accepted immediately
on the raw edge. -/
theorem debounce_asymmetric_policy :
    (∀ (r : Bool) (now : Nat) (t : TiltState),
      (tiltUpdate r now t).stable ≠ t.stable →
      (tiltUpdate r now t).stable = r ∧
        usub now (tiltUpdate r now t).tEdge ≥ t.debounceMs) ∧
    (∀ (raw : Bool) (now : Nat) (c : BtnChan),
      c.buttonState = true → (btnStep raw now c).buttonState = false →
      raw = false ∧ c.lastRaw = false ∧ usub now c.changeTime ≥ DEBOUNCE_MS) ∧
    (∀ (now : Nat) (c : BtnChan), c.buttonState = false → c.lastRaw = false →
      (btnStep true now c).buttonState = true) := by
  refine ⟨?_, ?_, ?_⟩
  · intro r now t h
    by_cases hs : t.solved = true
    · rw [tiltUpdate_of_solved r now t hs] at h
      exact absurd rfl h
    · replace hs : t.solved = false := by simpa using hs
      have hu : tiltUpdate r now t = tiltHold now (tiltDebounce r now t) := by
        simp [tiltUpdate, hs]
      obtain ⟨hst, hte⟩ := tiltHold_preserves now (tiltDebounce r now t)
      rw [hu, hst] at h
      obtain ⟨h1, h2⟩ := tiltDebounce_stable_change r now t h
      rw [hu, hst, hte]
      exact ⟨h1, h2⟩
  · intro raw now c hc h
    revert h
    simp only [btnStep, hc]
    split_ifs <;> intro h <;> simp_all [usub_self, DEBOUNCE_MS]
  · intro now c hc hr
    simp only [btnStep, hc, hr]
    split_ifs <;> simp_all [usub_self]

/-- Concrete tilt channel about to accept a pending stable change (for the
C7 witness). -/
def tiltChanW : TiltState :=
  { activeLow := false, debounceMs := 100, holdMs := 10000, solved := false,
    active := false, last := true, stable := false, tEdge := 0,
    tStartActive := 0, lastCountdownOutput := 0 }

/-- Concrete Simon button channel with a pending release (for the C7
witness). -/
def relChanW : BtnChan :=
  { buttonState := true, lastRaw := false, lastPressed := true, changeTime := 0 }

/-- Witness for the C7 amended theorem at concrete channels. -/
theorem debounce_asymmetric_policy_witness :
    ((tiltUpdate true 100 tiltChanW).stable = true ∧
      usub 100 (tiltUpdate true 100 tiltChanW).tEdge ≥ tiltChanW.debounceMs) ∧
    (false = false ∧ relChanW.lastRaw = false ∧
      usub 10 relChanW.changeTime ≥ DEBOUNCE_MS) ∧
    (btnStep true 3 btnZero).buttonState = true :=
  ⟨debounce_asymmetric_policy.1 true 100 tiltChanW (by decide),
   debounce_asymmetric_policy.2.1 false 10 relChanW (by decide) (by decide),
   debounce_asymmetric_policy.2.2 3 btnZero (by decide) (by decide)⟩

/-- C8 counterexample: after a failed accelerometer initialisation the
knock puzzle sits in `WAITING_TO_START`, but a single `reset()` moves it
to `IDLE` — it does not remain in its initial awaiting-activation state
across reset calls (configuration from main.cpp). -/
theorem knock_reset_leaves_waiting_state :
    (knockBegin false (knockInit 4 4 2000 100)).state = KState.waitingToStart ∧
    (knockReset (knockBegin false (knockInit 4 4 2000 100))).state = KState.idle ∧
    decide (KState.idle = KState.waitingToStart) = false := by
  decide

/-- An operation applied to the Simon Says puzzle by the outside world:
a tick or a reset. -/
inductive SimonOp where
  | upd (raw : List Bool) (now : Nat)
  | rst (now : Nat)

/-- Apply one operation. -/
def simonApplyOp (s : SimonState) : SimonOp → SimonState
  | SimonOp.upd raw now => simonUpdate raw now s
  | SimonOp.rst now => simonReset now s

/-- Apply a sequence of operations. -/
def simonOpsRun (ops : List SimonOp) (s : SimonState) : SimonState :=
  ops.foldl simonApplyOp s

/-- An operation applied to the knock puzzle whose accelerometer is dead:
a tick (every read fails, hence sample `none`) or a reset. -/
inductive KnockOp where
  | upd (now : Nat)
  | rst

/-- Apply one operation. -/
def knockApplyOp (k : KnockState) : KnockOp → KnockState
  | KnockOp.upd now => knockUpdate none now k
  | KnockOp.rst => knockReset k

/-- Apply a sequence of operations. -/
def knockOpsRun (ops : List KnockOp) (k : KnockState) : KnockState :=
  ops.foldl knockApplyOp k

/-- With the I/O expander unavailable, a Simon Says `update` is a no-op. -/
theorem simonUpdate_of_no_mcp (raw : List Bool) (now : Nat) (s : SimonState)
    (h : s.mcpInitialized = false) : simonUpdate raw now s = s := by
  simp [simonUpdate, h]

/-- A knock `update` whose accelerometer read fails changes nothing. -/
theorem knockUpdate_none (now : Nat) (k : KnockState) :
    knockUpdate none now k = k := by
  simp only [knockUpdate]
  split <;> rfl

/-- C8 amended: a puzzle whose hardware dependency fails in `begin` never
reports solved, across every sequence of `update` and `reset` calls: the
Simon Says puzzle additionally stays in its initial awaiting-activation
state, while the knock puzzle (whose `reset` moves it to `IDLE`) still can
never become solved while its reads keep failing. -/
theorem failed_dependency_never_solves :
    (∀ (ops : List SimonOp),
      (simonOpsRun ops (simonBegin false 0)).solved = false ∧
      (simonOpsRun ops (simonBegin false 0)).state = SState.waitingToStart ∧
      (simonOpsRun ops (simonBegin false 0)).mcpInitialized = false) ∧
    (∀ (rk : Nat) (th : ℚ) (w q : Nat) (ops : List KnockOp),
      knockIsSolved (knockOpsRun ops (knockBegin false (knockInit rk th w q))) = false) := by
  constructor
  · have key : ∀ (ops : List SimonOp) (s : SimonState),
        s.mcpInitialized = false → s.solved = false →
        s.state = SState.waitingToStart →
        (simonOpsRun ops s).solved = false ∧
          (simonOpsRun ops s).state = SState.waitingToStart ∧
          (simonOpsRun ops s).mcpInitialized = false := by
      intro ops
      induction ops with
      | nil => intro s h1 h2 h3; exact ⟨h2, h3, h1⟩
      | cons op rest ih =>
        intro s h1 h2 h3
        cases op with
        | upd raw now =>
          simpa [simonOpsRun, simonApplyOp,
            simonUpdate_of_no_mcp raw now s h1] using ih s h1 h2 h3
        | rst now =>
          have := ih (simonReset now s) (by simp [simonReset, h1]) rfl rfl
          simpa [simonOpsRun, simonApplyOp] using this
    intro ops
    exact key ops (simonBegin false 0) rfl rfl rfl
  · intro rk th w q
    have key : ∀ (ops : List KnockOp) (k : KnockState),
        knockIsSolved k = false → knockIsSolved (knockOpsRun ops k) = false := by
      intro ops
      induction ops with
      | nil => intro k h; exact h
      | cons op rest ih =>
        intro k h
        cases op with
        | upd now =>
          simpa [knockOpsRun, knockApplyOp, knockUpdate_none now k] using ih k h
        | rst =>
          have := ih (knockReset k) rfl
          simpa [knockOpsRun, knockApplyOp] using this
    intro ops
    apply key
    simp [knockBegin, knockInit, knockIsSolved]

/-- A filter keeps the full length exactly when every element satisfies
the predicate. -/
theorem filter_length_eq_iff {σ : Type} (p : σ → Bool) :
    ∀ l : List σ, ((l.filter p).length = l.length ↔ ∀ x ∈ l, p x = true)
  | [] => by simp
  | x :: xs => by
    have hle := List.length_filter_le p xs
    by_cases hx : p x = true
    · simp [List.filter_cons, hx, filter_length_eq_iff p xs]
    · simp only [List.filter_cons, hx, if_neg, Bool.false_eq_true,
        ite_false, List.length_cons]
      constructor
      · intro h; omega
      · intro h
        exact absurd (h x (List.mem_cons_self x xs)) hx

/-- If the latch is already set, a tick fires nothing and leaves the latch
set. -/
theorem mgrTickF_of_allSolved {σ : Type} (ops : PuzzleOps σ) (e : Env)
    (s : MgrState σ) (h : s.allSolved = true) :
    mgrTickF ops e s = ({ s with puzzles := s.puzzles.map (ops.update e) }, false) := by
  simp [mgrTickF, h]

/-- The unlock command never touches the aggregate latch. -/
theorem unlockCmd_allSolved {σ : Type} (x : MgrState σ) :
    (unlockCmd x).allSolved = x.allSolved := by
  simp only [unlockCmd]; split <;> rfl

/-- After the unlock command the last commanded angle is the unlocked
angle. -/
theorem unlockCmd_currentAngle {σ : Type} (x : MgrState σ) :
    (unlockCmd x).currentAngle = x.unlockedAngle := by
  simp only [unlockCmd]
  split
  · rfl
  · next h => exact Decidable.not_not.mp h

/-- Once the latch is set, every subsequent tick fires nothing. -/
theorem mgrFires_of_allSolved {σ : Type} (ops : PuzzleOps σ) :
    ∀ (es : List Env) (s : MgrState σ), s.allSolved = true →
      mgrFires ops es s = List.replicate es.length false
  | [], _, _ => rfl
  | e :: es, s, h => by
    simp only [mgrFires, mgrTickF_of_allSolved ops e s h]
    rw [mgrFires_of_allSolved ops es _ (by simpa using h)]
    simp [List.replicate]

/-- C1: the coordinator issues the unlock command exactly once per
all-solved episode. A tick fires the latch branch (which commands the
actuator unlocked) precisely when every attached puzzle reports solved
after its update while the aggregate latch is still clear; firing sets
the latch and leaves the actuator commanded at the unlocked angle; once
the latch is set, no tick of any later run fires again; and `resetAll`
clears the latch. -/
theorem manager_unlock_exactly_once {σ : Type} (ops : PuzzleOps σ) (e : Env)
    (s : MgrState σ) (hN : s.puzzles.length ≤ 255) :
    ((mgrTickF ops e s).2 = true ↔
      (s.allSolved = false ∧
        ∀ p ∈ s.puzzles.map (ops.update e), ops.isSolved p = true)) ∧
    ((mgrTickF ops e s).2 = true →
      (mgrTickF ops e s).1.allSolved = true ∧
      (mgrTickF ops e s).1.currentAngle = s.unlockedAngle) ∧
    (s.allSolved = true →
      ∀ es : List Env, mgrFires ops es s = List.replicate es.length false) ∧
    (mgrResetAll ops e s).allSolved = false := by
  have hcnt : (u8 ((s.puzzles.map (ops.update e)).filter
        (fun p => ops.isSolved p)).length = s.puzzles.length) ↔
      ∀ p ∈ s.puzzles.map (ops.update e), ops.isSolved p = true := by
    have hle : (((s.puzzles.map (ops.update e)).filter
        (fun p => ops.isSolved p)).length) ≤ s.puzzles.length := by
      have := List.length_filter_le (fun p => ops.isSolved p)
        (s.puzzles.map (ops.update e))
      simpa using this
    have hmod : u8 (((s.puzzles.map (ops.update e)).filter
        (fun p => ops.isSolved p)).length) =
        ((s.puzzles.map (ops.update e)).filter
          (fun p => ops.isSolved p)).length := by
      simp only [u8]
      omega
    rw [hmod]
    have hlen : s.puzzles.length = (s.puzzles.map (ops.update e)).length := by
      simp
    rw [hlen]
    exact filter_length_eq_iff _ _
  refine ⟨?_, ?_, ?_, ?_⟩
  · simp only [mgrTickF]
    split
    · next hcond => simpa [hcnt] using hcond
    · next hcond =>
      simp only [Bool.false_eq_true, false_iff]
      intro hc
      exact hcond ⟨hc.1, hcnt.mpr hc.2⟩
  · intro hf
    simp only [mgrTickF] at hf ⊢
    by_cases hcond : (s.allSolved = false ∧
        u8 ((s.puzzles.map (ops.update e)).filter
          (fun p => ops.isSolved p)).length = s.puzzles.length)
    · rw [if_pos hcond]
      exact ⟨unlockCmd_allSolved _, unlockCmd_currentAngle _⟩
    · rw [if_neg hcond] at hf
      simp at hf
  · intro hall es
    exact mgrFires_of_allSolved ops es s hall
  · simp only [mgrResetAll, lockCmd]
    split <;> rfl

/-- Concrete world sample for the C1 witness. -/
def envW : Env :=
  { now := 0, simonRaw := rawNone, tiltRaw := false, knockSample := none }

/-- One-puzzle coordinator whose tilt puzzle is already solved
(configuration of main.cpp), latch still clear. -/
def mgrW : MgrState PuzzleAny := mgrInit [PuzzleAny.tilt tiltSolvedW] 9 0 140

/-- Witness for C1: the concrete coordinator fires exactly on its first
tick, is left latched at the unlocked angle, never fires again, and
`resetAll` clears the latch. -/
theorem manager_unlock_exactly_once_witness :
    (mgrTickF anyOps envW mgrW).2 = true ∧
    (mgrTickF anyOps envW mgrW).1.allSolved = true ∧
    (mgrTickF anyOps envW mgrW).1.currentAngle = 140 ∧
    mgrFires anyOps [envW] (mgrTickF anyOps envW mgrW).1 = [false] ∧
    (mgrResetAll anyOps envW mgrW).allSolved = false := by
  have h := manager_unlock_exactly_once anyOps envW mgrW (by decide)
  have hf : (mgrTickF anyOps envW mgrW).2 = true := by decide
  have h2 := h.2.1 hf
  have h3 := manager_unlock_exactly_once anyOps envW
    (mgrTickF anyOps envW mgrW).1 (by decide)
  exact ⟨hf, h2.1, h2.2, h3.2.2.1 h2.1 [envW], h.2.2.2⟩

/-! ## Simon Says structural lemmas -/

/-- Every round's full length is at most 15. -/
theorem full_le_15 (r : Nat) : getCurrentSequenceLength r ≤ 15 := by
  simp only [getCurrentSequenceLength]
  split <;> omega

/-- `_success` never touches the consecutive-timeout counter. -/
theorem success_timeoutCount (now : Nat) (s : SimonState) :
    (simonSuccess now s).timeoutCount = s.timeoutCount := by
  simp only [simonSuccess, simonNextRound, simonStartRound]
  split_ifs <;> rfl

/-- C4 core: completing the prefix at the part-1 checkpoint length jumps
the build-up length straight to the round's full length and replays. -/
theorem success_jump (now : Nat) (s : SimonState)
    (h1 : s.currentLength = part1LengthFor s.currentRound)
    (h2 : s.currentLength < getCurrentSequenceLength s.currentRound) :
    (simonSuccess now s).currentLength = getCurrentSequenceLength s.currentRound ∧
    (simonSuccess now s).state = SState.playingSequence := by
  have h1n : ¬ getCurrentSequenceLength s.currentRound ≤ part1LengthFor s.currentRound := by
    omega
  simp [simonSuccess, h1, h1n, simonStartRound]

/-- Field effects of `_failure`: replay begins immediately at the same
length, same round. -/
theorem failure_fields (now : Nat) (s : SimonState) :
    (simonFailure now s).state = SState.playingSequence ∧
    (simonFailure now s).currentLength = s.currentLength ∧
    (simonFailure now s).playerIndex = 0 ∧
    (simonFailure now s).sequenceIndex = 0 ∧
    (simonFailure now s).timeoutCount = s.timeoutCount ∧
    (simonFailure now s).currentRound = s.currentRound := by
  simp [simonFailure, simonStartRound]

/-- After `_nextRound` the build-up length equals the new round's part-1
baseline. -/
theorem len_nextRound (now : Nat) (s : SimonState) :
    (simonNextRound now s).currentLength =
      part1LengthFor ((simonNextRound now s).currentRound) := by
  simp only [simonNextRound]
  split_ifs <;> rfl

/-- After `_success` the build-up length has either not decreased or sits
at the (new) round's part-1 baseline. -/
theorem len_success (now : Nat) (s : SimonState) :
    s.currentLength ≤ (simonSuccess now s).currentLength ∨
    (simonSuccess now s).currentLength =
      part1LengthFor ((simonSuccess now s).currentRound) := by
  by_cases h1 : s.currentLength ≥ getCurrentSequenceLength s.currentRound
  · right
    have hrw : simonSuccess now s =
        simonNextRound now
          { s with state := SState.successFeedback, stateTimer := now } := by
      simp [simonSuccess, h1]
    rw [hrw, len_nextRound]
  · by_cases h2 : s.currentLength = part1LengthFor s.currentRound
    · left
      have h1n : ¬ getCurrentSequenceLength s.currentRound ≤ part1LengthFor s.currentRound := by
        omega
      have hrw : (simonSuccess now s).currentLength =
          getCurrentSequenceLength s.currentRound := by
        simp [simonSuccess, h2, h1n, simonStartRound]
      rw [hrw]
      omega
    · left
      have hrw : (simonSuccess now s).currentLength = u8 (s.currentLength + 1) := by
        simp [simonSuccess, h1, h2, simonStartRound]
      have hf := full_le_15 s.currentRound
      rw [hrw]
      simp only [u8]
      omega

/-- Handling a wrong button press: failure with an immediate replay at
the same length, cursor cleared, counter cleared. -/
theorem handleButtonPress_wrong_fields (raw : List Bool) (b now : Nat)
    (s : SimonState)
    (hb : ¬ b = (getCurrentSequence s.currentRound).getD s.playerIndex 0) :
    (simonHandleButtonPress raw b now s).state = SState.playingSequence ∧
    (simonHandleButtonPress raw b now s).currentLength = s.currentLength ∧
    (simonHandleButtonPress raw b now s).playerIndex = 0 ∧
    (simonHandleButtonPress raw b now s).sequenceIndex = 0 ∧
    (simonHandleButtonPress raw b now s).timeoutCount = 0 ∧
    (simonHandleButtonPress raw b now s).currentRound = s.currentRound := by
  simp only [simonHandleButtonPress]
  rw [if_neg hb]
  simp [simonFailure, simonStartRound]

/-- Any handled button press zeroes the consecutive-timeout counter. -/
theorem handleButtonPress_timeoutCount (raw : List Bool) (b now : Nat)
    (s : SimonState) :
    (simonHandleButtonPress raw b now s).timeoutCount = 0 := by
  simp only [simonHandleButtonPress]
  split_ifs with hb hc
  · rw [success_timeoutCount]
  · rfl
  · simp [simonFailure, simonStartRound]

/-- Build-up length evolution of a handled button press. -/
theorem len_handleButtonPress (raw : List Bool) (b now : Nat) (s : SimonState) :
    s.currentLength ≤ (simonHandleButtonPress raw b now s).currentLength ∨
    (simonHandleButtonPress raw b now s).currentLength =
      part1LengthFor ((simonHandleButtonPress raw b now s).currentRound) := by
  simp only [simonHandleButtonPress]
  split_ifs with hb hc
  · rcases len_success now
      ({ s with
          playerIndex := u8 (s.playerIndex + 1)
          timeoutCount := 0
          btns := feedbackButtons raw now
            (listModify s.btns b (fun c => { c with lastPressed := true }))
          inputTimer := now }) with h | h
    · left; simpa using h
    · right; simpa using h
  · left; simp
  · left; simp [simonFailure, simonStartRound]

/-- In `WAITING_INPUT`, `update` reduces to the player-input handler on
the freshly debounced state. -/
theorem simonUpdate_waitingInput (raw : List Bool) (now : Nat) (s : SimonState)
    (h0 : s.solved = false) (h1 : s.mcpInitialized = true)
    (h2 : s.state = SState.waitingInput) :
    simonUpdate raw now s =
      simonHandlePlayerInput raw now { s with btns := updateButtons raw now s.btns } := by
  simp [simonUpdate, h0, h1, h2]

/-- Without a timeout, the player-input handler dispatches the first
pressed button. -/
theorem handlePlayerInput_press (raw : List Bool) (now : Nat) (s : SimonState)
    (b : Nat) (ht : ¬ usub now s.inputTimer > INPUT_TIMEOUT)
    (hp : firstPressedIdx s.btns = some b) :
    simonHandlePlayerInput raw now s = simonHandleButtonPress raw b now s := by
  simp [simonHandlePlayerInput, ht, hp]

/-- A sub-threshold timeout is an ordinary failure with the counter
incremented. -/
theorem handlePlayerInput_timeout_low (raw : List Bool) (now : Nat)
    (s : SimonState) (ht : usub now s.inputTimer > INPUT_TIMEOUT)
    (hc : u8 (s.timeoutCount + 1) < 4) :
    simonHandlePlayerInput raw now s =
      simonFailure now { s with timeoutCount := u8 (s.timeoutCount + 1) } := by
  simp [simonHandlePlayerInput, ht, Nat.not_le.mpr hc]

/-- A timeout that reaches the threshold forces a full reset. -/
theorem handlePlayerInput_timeout_high (raw : List Bool) (now : Nat)
    (s : SimonState) (ht : usub now s.inputTimer > INPUT_TIMEOUT)
    (hc : u8 (s.timeoutCount + 1) ≥ 4) :
    simonHandlePlayerInput raw now s =
      simonReset now { s with timeoutCount := u8 (s.timeoutCount + 1) } := by
  simp [simonHandlePlayerInput, ht, hc]

/-- `_playSequenceStep` never changes the build-up length. -/
theorem len_playStep (now : Nat) (s : SimonState) :
    (simonPlaySequenceStep now s).currentLength = s.currentLength := by
  simp only [simonPlaySequenceStep]
  split_ifs <;> rfl

/-- Build-up length evolution of the player-input handler. -/
theorem len_handlePlayerInput (raw : List Bool) (now : Nat) (s : SimonState) :
    s.currentLength ≤ (simonHandlePlayerInput raw now s).currentLength ∨
    (simonHandlePlayerInput raw now s).currentLength =
      part1LengthFor ((simonHandlePlayerInput raw now s).currentRound) := by
  simp only [simonHandlePlayerInput]
  split_ifs with ht hc
  · right; simp [simonReset, part1LengthFor, round1Part1Length]
  · left; simp [simonFailure, simonStartRound]
  · cases hp : firstPressedIdx s.btns with
    | some b => exact len_handleButtonPress raw b now s
    | none => exact Or.inl (Nat.le_refl _)

/-- C4: completing the current prefix when the build-up length equals the
round's part-1 checkpoint jumps the required length straight to the
round's full length; concretely, in the run from `begin`, six correct
inputs at round 1 set the build-up length to 11 (not 7), and a subsequent
wrong input at position 3 of 11 replays at length 11 (not 6). -/
theorem checkpoint_jump_to_full_length :
    (∀ (now : Nat) (s : SimonState),
      s.currentLength = part1LengthFor s.currentRound →
      s.currentLength < getCurrentSequenceLength s.currentRound →
      (simonSuccess now s).currentLength = getCurrentSequenceLength s.currentRound ∧
      (simonSuccess now s).state = SState.playingSequence) ∧
    (c4state1.currentLength = 11 ∧
      c4state1.state = SState.playingSequence ∧
      c4state1.currentRound = 0 ∧
      c4state2.currentLength = 11 ∧
      c4state2.state = SState.playingSequence ∧
      c4state2.currentRound = 0 ∧
      c4state2.playerIndex = 0) := by
  refine ⟨success_jump, ?_⟩
  decide

/-- The state reached after the activation gesture and the first part-1
playback: awaiting input at length 6 of round 1. -/
def c4witState : SimonState := simonRun c4ticksA (simonBegin true 0)

/-- Witness for C4 at the concrete checkpoint state. -/
theorem checkpoint_jump_to_full_length_witness :
    (simonSuccess 9999 c4witState).currentLength = 11 ∧
    (simonSuccess 9999 c4witState).state = SState.playingSequence := by
  have h := checkpoint_jump_to_full_length.1 9999 c4witState (by decide) (by decide)
  exact ⟨h.1, h.2⟩

/-- C9 counterexample: a failing input moves the machine straight to
`PLAYING_SEQUENCE` within the same `update` call — the post-tick state is
not `FAILURE_FEEDBACK`, so the failure-pause state is never occupied
between consecutive ticks. -/
theorem failure_pause_not_occupied_across_ticks :
    c9base.state = SState.waitingInput ∧
    (simonUpdate (rawOf 3) 14400 c9base).state = SState.playingSequence ∧
    (simonUpdate (rawOf 3) 14400 c9base).currentLength = c9base.currentLength ∧
    decide ((simonUpdate (rawOf 3) 14400 c9base).state = SState.failureFeedback)
      = false := by
  decide

/-- C9 amended: a failed attempt (wrong input, or a sub-threshold idle
timeout) passes through `FAILURE_FEEDBACK` only transiently inside the
same `update` call: the post-update state is already `PLAYING_SEQUENCE`
at the same prefix length with the playback cursor cleared. -/
theorem failure_replays_within_same_tick :
    (∀ (raw : List Bool) (now : Nat) (s : SimonState) (b : Nat),
      s.solved = false → s.mcpInitialized = true → s.state = SState.waitingInput →
      ¬ usub now s.inputTimer > INPUT_TIMEOUT →
      firstPressedIdx (updateButtons raw now s.btns) = some b →
      ¬ b = (getCurrentSequence s.currentRound).getD s.playerIndex 0 →
      (simonUpdate raw now s).state = SState.playingSequence ∧
      (simonUpdate raw now s).currentLength = s.currentLength ∧
      (simonUpdate raw now s).playerIndex = 0 ∧
      (simonUpdate raw now s).sequenceIndex = 0) ∧
    (∀ (raw : List Bool) (now : Nat) (s : SimonState),
      s.solved = false → s.mcpInitialized = true → s.state = SState.waitingInput →
      usub now s.inputTimer > INPUT_TIMEOUT →
      u8 (s.timeoutCount + 1) < 4 →
      (simonUpdate raw now s).state = SState.playingSequence ∧
      (simonUpdate raw now s).currentLength = s.currentLength) := by
  constructor
  · intro raw now s b h0 h1 h2 ht hp hb
    rw [simonUpdate_waitingInput raw now s h0 h1 h2,
      handlePlayerInput_press raw now
        { s with btns := updateButtons raw now s.btns } b ht hp]
    have hw := handleButtonPress_wrong_fields raw b now
      { s with btns := updateButtons raw now s.btns } hb
    exact ⟨hw.1, hw.2.1, hw.2.2.1, hw.2.2.2.1⟩
  · intro raw now s h0 h1 h2 ht hc
    rw [simonUpdate_waitingInput raw now s h0 h1 h2,
      handlePlayerInput_timeout_low raw now
        { s with btns := updateButtons raw now s.btns } ht hc]
    exact ⟨(failure_fields now _).1, (failure_fields now _).2.1⟩

/-- Witness for the C9 amended theorem: the wrong press on the concrete
length-11 state. -/
theorem failure_replays_within_same_tick_witness :
    (simonUpdate (rawOf 3) 14400 c9base).state = SState.playingSequence ∧
    (simonUpdate (rawOf 3) 14400 c9base).currentLength = c9base.currentLength ∧
    (simonUpdate (rawOf 3) 14400 c9base).playerIndex = 0 ∧
    (simonUpdate (rawOf 3) 14400 c9base).sequenceIndex = 0 :=
  failure_replays_within_same_tick.1 (rawOf 3) 14400 c9base 3
    (by decide) (by decide) (by decide) (by decide) (by decide) (by decide)

/-- C6: the consecutive-timeout counter is zeroed by any handled player
input; an idle timeout in the input phase increments it exactly once for
that window (the machine leaves the input phase, replaying the same
length, so no further increment can occur until the next input phase)
while below the threshold; and on reaching the threshold of 4 the puzzle
performs a full reset back to its initial awaiting-activation state. -/
theorem timeout_counter_policy :
    (∀ (raw : List Bool) (now : Nat) (s : SimonState) (b : Nat),
      s.solved = false → s.mcpInitialized = true → s.state = SState.waitingInput →
      ¬ usub now s.inputTimer > INPUT_TIMEOUT →
      firstPressedIdx (updateButtons raw now s.btns) = some b →
      (simonUpdate raw now s).timeoutCount = 0) ∧
    (∀ (raw : List Bool) (now : Nat) (s : SimonState),
      s.solved = false → s.mcpInitialized = true → s.state = SState.waitingInput →
      usub now s.inputTimer > INPUT_TIMEOUT →
      u8 (s.timeoutCount + 1) < 4 →
      (simonUpdate raw now s).timeoutCount = u8 (s.timeoutCount + 1) ∧
      (simonUpdate raw now s).state = SState.playingSequence ∧
      (simonUpdate raw now s).currentLength = s.currentLength) ∧
    (∀ (raw : List Bool) (now : Nat) (s : SimonState),
      s.solved = false → s.mcpInitialized = true → s.state = SState.waitingInput →
      usub now s.inputTimer > INPUT_TIMEOUT →
      u8 (s.timeoutCount + 1) ≥ 4 →
      (simonUpdate raw now s).state = SState.waitingToStart ∧
      (simonUpdate raw now s).timeoutCount = 0 ∧
      (simonUpdate raw now s).solved = false ∧
      (simonUpdate raw now s).currentRound = 0 ∧
      (simonUpdate raw now s).currentLength = round1Part1Length ∧
      (simonUpdate raw now s).playerIndex = 0) := by
  refine ⟨?_, ?_, ?_⟩
  · intro raw now s b h0 h1 h2 ht hp
    rw [simonUpdate_waitingInput raw now s h0 h1 h2,
      handlePlayerInput_press raw now
        { s with btns := updateButtons raw now s.btns } b ht hp]
    exact handleButtonPress_timeoutCount raw b now _
  · intro raw now s h0 h1 h2 ht hc
    rw [simonUpdate_waitingInput raw now s h0 h1 h2,
      handlePlayerInput_timeout_low raw now
        { s with btns := updateButtons raw now s.btns } ht hc]
    refine ⟨?_, (failure_fields now _).1, (failure_fields now _).2.1⟩
    exact (failure_fields now _).2.2.2.2.1
  · intro raw now s h0 h1 h2 ht hc
    rw [simonUpdate_waitingInput raw now s h0 h1 h2,
      handlePlayerInput_timeout_high raw now
        { s with btns := updateButtons raw now s.btns } ht hc]
    simp [simonReset]

/-- A length-11 input-phase state with three consecutive timeouts already
recorded. -/
def c6state : SimonState := { c9base with timeoutCount := 3 }

/-- Witness for C6: a press zeroes the counter; a first timeout increments
it to 1 and replays at length 11; a fourth timeout fully resets. -/
theorem timeout_counter_policy_witness :
    (simonUpdate (rawOf 0) 14400 c9base).timeoutCount = 0 ∧
    ((simonUpdate rawNone 20000 c9base).timeoutCount = u8 (c9base.timeoutCount + 1) ∧
      (simonUpdate rawNone 20000 c9base).state = SState.playingSequence ∧
      (simonUpdate rawNone 20000 c9base).currentLength = c9base.currentLength) ∧
    ((simonUpdate rawNone 20000 c6state).state = SState.waitingToStart ∧
      (simonUpdate rawNone 20000 c6state).timeoutCount = 0 ∧
      (simonUpdate rawNone 20000 c6state).solved = false ∧
      (simonUpdate rawNone 20000 c6state).currentRound = 0 ∧
      (simonUpdate rawNone 20000 c6state).currentLength = round1Part1Length ∧
      (simonUpdate rawNone 20000 c6state).playerIndex = 0) :=
  ⟨timeout_counter_policy.1 (rawOf 0) 14400 c9base 0
      (by decide) (by decide) (by decide) (by decide) (by decide),
   timeout_counter_policy.2.1 rawNone 20000 c9base
      (by decide) (by decide) (by decide) (by decide) (by decide),
   timeout_counter_policy.2.2 rawNone 20000 c6state
      (by decide) (by decide) (by decide) (by decide) (by decide)⟩

/-- C5 counterexample: an ordinary `update` call (the final correct input
of round 1, reached by a genuine run — not a reset) lowers the build-up
length from 11 to 6 when `_nextRound` advances to round 2 and resets the
length to the new round's part-1 baseline. -/
theorem buildup_length_decrease_at_round_advance :
    c5pre.currentLength = 11 ∧
    c5pre.state = SState.waitingInput ∧
    c5post.currentLength = 6 ∧
    c5post.currentRound = 1 ∧
    c5post.state = SState.waitingToStart ∧
    c5post.solved = false ∧
    c5post.currentLength < c5pre.currentLength := by
  decide

/-- C5 amended: the build-up length never decreases across `update` calls
except through a reset (explicit or the timeout-threshold reset) or a
round advance, each of which sets it to the (new) round's part-1 baseline
— whenever the length drops, the new length is exactly the baseline of
the new round; and an ordinary failure (wrong input) replays the same
length. -/
theorem buildup_length_decrease_only_to_baseline :
    (∀ (raw : List Bool) (now : Nat) (s : SimonState),
      s.currentLength ≤ (simonUpdate raw now s).currentLength ∨
      (simonUpdate raw now s).currentLength =
        part1LengthFor ((simonUpdate raw now s).currentRound)) ∧
    (∀ (raw : List Bool) (now : Nat) (s : SimonState) (b : Nat),
      s.solved = false → s.mcpInitialized = true → s.state = SState.waitingInput →
      ¬ usub now s.inputTimer > INPUT_TIMEOUT →
      firstPressedIdx (updateButtons raw now s.btns) = some b →
      ¬ b = (getCurrentSequence s.currentRound).getD s.playerIndex 0 →
      (simonUpdate raw now s).currentLength = s.currentLength) := by
  constructor
  · intro raw now s
    by_cases h0 : (s.solved || !s.mcpInitialized) = true
    · left
      simp [simonUpdate, h0]
    · rcases hstate : s.state with _ | _ | _ | _ | _ | _
      · left
        simp only [simonUpdate, h0, Bool.false_eq_true, if_false, hstate]
        split_ifs <;> simp
      · left
        simp only [simonUpdate, h0, Bool.false_eq_true, if_false, hstate]
        split_ifs <;> simp [simonStartRound]
      · left
        simp only [simonUpdate, h0, Bool.false_eq_true, if_false, hstate]
        rw [len_playStep]
      · have hrw : simonUpdate raw now s =
            simonHandlePlayerInput raw now
              { s with btns := updateButtons raw now s.btns } := by
          simp [simonUpdate, h0, hstate]
        rw [hrw]
        exact len_handlePlayerInput raw now
          { s with btns := updateButtons raw now s.btns }
      · simp only [simonUpdate, h0, Bool.false_eq_true, if_false, hstate]
        split_ifs
        · right
          exact len_nextRound now _
        · left
          exact Nat.le_refl _
      · left
        simp only [simonUpdate, h0, Bool.false_eq_true, if_false, hstate]
        split_ifs <;> simp [simonReplaySequence]
  · intro raw now s b h0 h1 h2 ht hp hb
    rw [simonUpdate_waitingInput raw now s h0 h1 h2,
      handlePlayerInput_press raw now
        { s with btns := updateButtons raw now s.btns } b ht hp]
    exact (handleButtonPress_wrong_fields raw b now
      { s with btns := updateButtons raw now s.btns } hb).2.1

/-- Witness for the C5 amended theorem: a wrong press (button 2 instead
of button 0) on the concrete length-11 state replays the same length. -/
theorem buildup_length_decrease_only_to_baseline_witness :
    (simonUpdate (rawOf 2) 14400 c9base).currentLength = c9base.currentLength :=
  buildup_length_decrease_only_to_baseline.2 (rawOf 2) 14400 c9base 2
    (by decide) (by decide) (by decide) (by decide) (by decide) (by decide)

end SintBox
